import Mathlib

/-!
Shallow embedding of the core view-state and derivation logic of
`src/components/ui/advanced-table.tsx` (the `Table` React component and its
helpers), together with theorems settling specification claims about it.

Modelling conventions:
* JavaScript field values that participate in sorting are modelled as `Int`
  (the source compares them with the native `<` / `>` operators).
* A row (`Record<string, any>`) is modelled as an association list from field
  identifier to value (`SRow` for the sorting/paging/selection pipeline,
  `String → JSValue` for cell rendering, where values may be rich
  cell-descriptor objects).
* `URLSearchParams` is modelled as a function `String → Option String`;
  `set`/`delete` become pointwise updates.
* `Array.prototype.sort` with a consistent comparator is modelled as a stable
  merge sort on the comparator-induced boolean "less or equal" test
  (ECMAScript sorts are stable).
* Promise success/failure of the fetch collaborator is modelled as an
  `Except` value passed to the orchestrator step function; errors reported to
  the diagnostic collaborator (`console.error`) are returned as a log list.
-/

namespace AdvancedTable

/-- `type SortDirection = "asc" | "desc"`. -/
inductive SortDirection where
  | asc
  | desc
deriving DecidableEq, Repr

/-- A JavaScript value stored in a table cell: a plain string or number, or a
rich "cell descriptor" object `{ value, rowSpan?, colSpan? }` used by the
specification to express merged cells. -/
inductive JSValue where
  | str : String → JSValue
  | num : Int → JSValue
  | cellDesc : JSValue → Option Nat → Option Nat → JSValue
deriving DecidableEq, Repr

/-- `interface Column<T>`: `key`, `header`, `sortable?`, `sticky?`, `width?`,
`cellRenderer?: (value, row) => ReactNode`.  Optional booleans default to
`false` (JavaScript `undefined` is falsy). -/
structure Column where
  key : String
  header : String := ""
  sortable : Bool := false
  sticky : Bool := false
  width : Option Nat := none
  cellRenderer : Option (JSValue → (String → JSValue) → JSValue) := none

instance : Inhabited Column := ⟨{ key := "" }⟩

/-- `column.width || 150`: an absent width defaults to 150, and — because `0`
is falsy in JavaScript — an explicit width of `0` also yields 150. -/
def colWidth (c : Column) : Nat :=
  match c.width with
  | some w => if w = 0 then 150 else w
  | none => 150

/-- One step of the `columns.reduce` accumulator building `stickyOffsets`:
```
if (!column.sticky) return acc;
const prevOffset = index > 0 ? acc[columns[index - 1].key] || 0 : 0;
acc[column.key] = prevOffset + (column.width || 150);
return acc;
```
The pair `p` is `(index, column)` as produced by enumerating `columns`. -/
def stickyStep (columns : List Column) (acc : String → Option Nat)
    (p : Nat × Column) : String → Option Nat :=
  if p.2.sticky = false then acc
  else
    let prevOffset : Nat :=
      if 0 < p.1 then
        match columns[p.1 - 1]? with
        | some prev => (acc prev.key).getD 0
        | none => 0
      else 0
    fun k => if k = p.2.key then some (prevOffset + colWidth p.2) else acc k

/-- `const stickyOffsets = columns.reduce(..., {} as Record<keyof T, number>)`:
the derived sticky-offset map, keyed by column key. -/
def stickyOffsets (columns : List Column) : String → Option Nat :=
  columns.enum.foldl (stickyStep columns) (fun _ => none)

/-- A row for the sorting / pagination / selection pipeline: an association
list from field identifier to (integer-modelled) field value. -/
def SRow : Type := List (String × Int)

instance : DecidableEq SRow := by unfold SRow; infer_instance

instance : Inhabited SRow := ⟨([] : List (String × Int))⟩

/-- `row[key]` for a sortable field. -/
def rowVal (r : SRow) (key : String) : Int :=
  (List.lookup key r).getD 0

/-- The comparator passed to `sort`:
```
if (a[sortColumn] < b[sortColumn]) return sortDirection === "asc" ? -1 : 1;
if (a[sortColumn] > b[sortColumn]) return sortDirection === "asc" ? 1 : -1;
return 0;
```
-/
def sortCompare (key : String) (dir : SortDirection) (a b : SRow) : Int :=
  if rowVal a key < rowVal b key then (if dir = .asc then -1 else 1)
  else if rowVal b key < rowVal a key then (if dir = .asc then 1 else -1)
  else 0

/-- The boolean "stays in order" test induced by the comparator: a stable
ECMAScript sort keeps `a` before `b` exactly when the comparator is `≤ 0`. -/
def sortLe (key : String) (dir : SortDirection) (a b : SRow) : Bool :=
  sortCompare key dir a b ≤ 0

/-- `sortedData`:
```
if (dynamic || !sortColumn || !sortDirection) return data;
return [...data].sort(comparator);
```
`!sortColumn` is true when the column is `null` or the empty string (both are
falsy).  The copy-then-sort is modelled by a stable merge sort. -/
def sortedData (dynamic : Bool) (sortColumn : Option String)
    (sortDirection : Option SortDirection) (data : List SRow) : List SRow :=
  match sortColumn, sortDirection with
  | some k, some d =>
      if dynamic = true ∨ k = "" then data else data.mergeSort (sortLe k d)
  | _, _ => data

/-- `Array.prototype.slice(start, stop)` for non-negative indices: the
elements at indices in `[start, stop)`, clamped to the available length. -/
def jsSlice {α : Type _} (l : List α) (start stop : Nat) : List α :=
  (l.drop start).take (stop - start)

/-- `paginatedData`:
```
dynamic ? sortedData
        : sortedData.slice((currentPage - 1) * itemsPerPage,
                           currentPage * itemsPerPage)
```
-/
def paginatedData (dynamic : Bool) (currentPage itemsPerPage : Nat)
    (sorted : List SRow) : List SRow :=
  if dynamic = true then sorted
  else jsSlice sorted ((currentPage - 1) * itemsPerPage)
    (currentPage * itemsPerPage)

/-- `const totalPages = Math.ceil(totalItems / itemsPerPage)` (exact rational
division in place of floating point). -/
def totalPages (totalItems itemsPerPage : Nat) : Nat :=
  (Int.ceil ((totalItems : ℚ) / (itemsPerPage : ℚ))).toNat

/-- `toggleAllRows`:
```
setSelectedRows((prev) => (prev.length === data.length ? [] : [...data]));
```
-/
def toggleAllRows (selectedRows data : List SRow) : List SRow :=
  if selectedRows.length = data.length then [] else data

/-- The in-memory view-state of the component together with the query-parameter
store it synchronizes with (`useSearchParams` / `router.push`).  The store maps
a parameter name to its string value, `none` meaning the key is absent. -/
structure SyncState where
  currentPage : Nat
  itemsPerPage : Nat
  sortColumn : Option String
  sortDirection : Option SortDirection
  store : String → Option String

/-- `updateSearchParams`: copy the current params, then for each entry
`set(key, value)` or — when the value is `null` — `delete(key)`, and push the
result.  The pushed store is returned. -/
def updateSearchParams (params : List (String × Option String))
    (store : String → Option String) : String → Option String :=
  params.foldl (fun s kv => fun k => if k = kv.1 then kv.2 else s k) store

/-- `"asc"` / `"desc"` as the string written into the query parameters. -/
def dirString : SortDirection → String
  | .asc => "asc"
  | .desc => "desc"

/-- `handleSort(column)`: ignore non-sortable columns; cycle `asc → desc` on
the already-active column, otherwise start at `asc`; mirror the new sort (and
`page = 1`) into the query-parameter store. -/
def handleSort (column : Column) (s : SyncState) : SyncState :=
  if column.sortable = false then s
  else
    let newDirection : SortDirection :=
      if s.sortColumn = some column.key ∧ s.sortDirection = some .asc
      then .desc else .asc
    { s with
      sortColumn := some column.key
      sortDirection := some newDirection
      store := updateSearchParams
        [("sortColumn", some column.key),
         ("sortDirection", some (dirString newDirection)),
         ("page", some "1")] s.store }

/-- `handleClearSort`: null out the in-memory sort, delete both sort keys from
the query parameters, and set the page parameter to `"1"`. -/
def handleClearSort (s : SyncState) : SyncState :=
  { s with
    sortColumn := none
    sortDirection := none
    store := updateSearchParams
      [("sortColumn", none), ("sortDirection", none), ("page", some "1")]
      s.store }

/-- `handlePageChange(newPage)`. -/
def handlePageChange (newPage : Nat) (s : SyncState) : SyncState :=
  { s with
    currentPage := newPage
    store := updateSearchParams [("page", some (toString newPage))] s.store }

/-- `handleItemsPerPageChange(value)`: `Number(value)` is modelled for the
numeric strings the page-size selector produces. -/
def handleItemsPerPageChange (value : String) (s : SyncState) : SyncState :=
  { s with
    itemsPerPage := value.toNat?.getD 0
    currentPage := 1
    store := updateSearchParams
      [("page", some "1"), ("itemsPerPage", some value)] s.store }

/-- The slice of component state the fetch orchestrator touches. -/
structure FetchState where
  data : List SRow
  totalItems : Nat
  loading : Bool

/-- `fetchData`: guard on `dynamic && onFetchData`; set the loading flag; make
one call to the collaborator (its outcome is the `result` argument); on
success replace `data` / `totalItems`, on failure `console.error` the error
(returned in the log component); `finally` clear the loading flag. -/
def fetchData (dynamic hasOnFetchData : Bool)
    (result : Except String (List SRow × Nat)) (s : FetchState) :
    FetchState × List String :=
  if dynamic = false ∨ hasOnFetchData = false then (s, [])
  else
    let s1 := { s with loading := true }
    match result with
    | .ok r => ({ s1 with data := r.1, totalItems := r.2, loading := false }, [])
    | .error e => ({ s1 with loading := false }, [e])

/-- One rendered body cell as produced by `TableRow`: the column key it was
rendered for, the computed sticky `left` offset (`undefined` for non-sticky
columns), and the displayed content. -/
structure RenderedCell where
  key : String
  leftOffset : Option Int
  content : JSValue
deriving DecidableEq

/-- The body cells produced by `TableRow` for one row: one `TableCell` per
column, content
`column.cellRenderer ? column.cellRenderer(row[column.key], row) : row[column.key]`,
sticky left offset `stickyOffsets[column.key] - (column.width || 150) + 30`. -/
def tableRowCells (columns : List Column) (row : String → JSValue) :
    List RenderedCell :=
  columns.map (fun column =>
    { key := column.key
      leftOffset :=
        if column.sticky = true then
          some ((((stickyOffsets columns column.key).getD 0 : Int))
            - (colWidth column : Int) + 30)
        else none
      content :=
        match column.cellRenderer with
        | some f => f (row column.key) row
        | none => row column.key })

/-! ### Specification-side closed forms and concrete instances -/

/-- The column at position `j` (defaulting outside the list; only used at
in-range indices). -/
def colAt (cols : List Column) (j : Nat) : Column :=
  (cols[j]?).getD default

/-- Closed form of the offset the reducer records for the column at position
`j`: its own width plus the entry of the immediately preceding column when
that column is sticky, restarting from 0 otherwise. -/
def offAt (cols : List Column) : Nat → Nat
  | 0 => colWidth (colAt cols 0)
  | j + 1 =>
      (if (colAt cols j).sticky = true then offAt cols j else 0)
        + colWidth (colAt cols (j + 1))

/-- The offset map after the reducer has processed the first `t` columns. -/
def accUpTo (cols : List Column) : Nat → String → Option Nat
  | 0 => fun _ => none
  | t + 1 => fun k =>
      if (colAt cols t).sticky = true ∧ k = (colAt cols t).key
      then some (offAt cols t) else accUpTo cols t k

/-- The ordering relation "row `a` may precede row `b`" demanded of the sorted
output for key `k` and direction `d`. -/
def keyOrder (k : String) (d : SortDirection) (a b : SRow) : Prop :=
  match d with
  | .asc => rowVal a k ≤ rowVal b k
  | .desc => rowVal b k ≤ rowVal a k

instance (k : String) (d : SortDirection) (a b : SRow) :
    Decidable (keyOrder k d a b) := by
  cases d <;> simp only [keyOrder] <;> infer_instance

/-- The two sticky columns of the specification's offset scenario. -/
def exCols : List Column :=
  [{ key := "id", header := "ID", sortable := true, sticky := true,
     width := some 80 },
   { key := "name", header := "Name", sortable := true, sticky := true,
     width := some 200 }]

/-- Concrete rows `{id: 1}`, `{id: 2}`, `{id: 3}` of the sorting and selection
scenarios. -/
def r1 : SRow := [("id", (1 : Int))]

/-- See `r1`. -/
def r2 : SRow := [("id", (2 : Int))]

/-- See `r1`. -/
def r3 : SRow := [("id", (3 : Int))]

/-- 45 distinct rows for the pagination scenario. -/
def rows45 : List SRow := (List.range 45).map (fun i => [("id", (i : Int))])

/-- A non-sticky column whose cells hold merged-cell descriptors in the
specification's scenario. -/
def deptCol : Column := { key := "department", header := "Department",
                          width := some 200 }

/-- A row whose `department` field is the cell descriptor
`{value: "IT", colSpan: 0}`. -/
def deptRow : String → JSValue := fun k =>
  if k = "department" then .cellDesc (.str "IT") none (some 0) else .num 0

/-- A sortable column, for exercising `handleSort`. -/
def sortableCol : Column := { key := "name", header := "Name",
                              sortable := true }

/-- A concrete synchronizer state whose store carries an unrelated parameter
`ref=42`. -/
def s0 : SyncState :=
  { currentPage := 1
    itemsPerPage := 20
    sortColumn := none
    sortDirection := none
    store := fun k => if k = "ref" then some "42" else none }

/-! ### Offset calculator (C1) -/

lemma colAt_eq (cols : List Column) (j : Nat) (hj : j < cols.length) :
    colAt cols j = cols[j] := by
  simp [colAt, List.getElem?_eq_getElem hj]

lemma keys_ne (cols : List Column) (hnd : (cols.map Column.key).Nodup)
    {i j : Nat} (hij : i < j) (hj : j < cols.length) :
    (colAt cols i).key ≠ (colAt cols j).key := by
  have hi : i < cols.length := lt_trans hij hj
  rw [colAt_eq cols i hi, colAt_eq cols j hj]
  have h := (List.pairwise_iff_getElem.mp hnd) i j
    (by simpa using hi) (by simpa using hj) hij
  simpa using h

lemma accUpTo_none (cols : List Column) :
    ∀ t, t ≤ cols.length → ∀ k, (∀ j, j < t → (colAt cols j).key ≠ k) →
      accUpTo cols t k = none
  | 0, _, _, _ => rfl
  | t + 1, ht, k, hk => by
      have h1 : ¬ ((colAt cols t).sticky = true ∧ k = (colAt cols t).key) := by
        rintro ⟨-, h⟩
        exact hk t (Nat.lt_succ_self t) h.symm
      simp only [accUpTo]
      rw [if_neg h1]
      exact accUpTo_none cols t (Nat.le_of_succ_le ht) k
        (fun j hj => hk j (Nat.lt_succ_of_lt hj))

lemma accUpTo_lookup (cols : List Column)
    (hnd : (cols.map Column.key).Nodup) :
    ∀ t, t ≤ cols.length → ∀ j, j < t →
      accUpTo cols t (colAt cols j).key
        = if (colAt cols j).sticky = true then some (offAt cols j) else none
  | 0, _, j, hj => absurd hj (Nat.not_lt_zero j)
  | t + 1, ht, j, hj => by
      rcases Nat.lt_succ_iff_lt_or_eq.mp hj with h | h
      · have hne : (colAt cols j).key ≠ (colAt cols t).key :=
          keys_ne cols hnd h (lt_of_lt_of_le (Nat.lt_succ_self t) ht)
        simp only [accUpTo]
        rw [if_neg (by rintro ⟨-, h2⟩; exact hne h2)]
        exact accUpTo_lookup cols hnd t (Nat.le_of_succ_le ht) j h
      · subst h
        simp only [accUpTo]
        by_cases hs : (colAt cols j).sticky = true
        · rw [if_pos ⟨hs, trivial⟩, if_pos hs]
        · rw [if_neg (by rintro ⟨h1, -⟩; exact hs h1), if_neg hs]
          exact accUpTo_none cols j (Nat.le_of_succ_le ht) _
            (fun i hi =>
              keys_ne cols hnd hi (lt_of_lt_of_le (Nat.lt_succ_self j) ht))

lemma stickyStep_accUpTo (cols : List Column)
    (hnd : (cols.map Column.key).Nodup) {t : Nat} (ht : t < cols.length) :
    stickyStep cols (accUpTo cols t) (t, colAt cols t)
      = accUpTo cols (t + 1) := by
  by_cases hs : (colAt cols t).sticky = true
  · funext k
    by_cases hk : k = (colAt cols t).key
    · rw [hk,
        accUpTo_lookup cols hnd (t + 1) (Nat.succ_le_of_lt ht) t
          (Nat.lt_succ_self t),
        if_pos hs]
      cases t with
      | zero => simp [stickyStep, hs, offAt]
      | succ s =>
          have hs' : s < cols.length := lt_trans (Nat.lt_succ_self s) ht
          have h1 : cols[s]? = some (colAt cols s) := by
            simp [colAt_eq cols s hs', List.getElem?_eq_getElem hs']
          have h2 := accUpTo_lookup cols hnd (s + 1) (le_of_lt ht) s
            (Nat.lt_succ_self s)
          by_cases hss : (colAt cols s).sticky = true
          · simp [stickyStep, hs, h1, h2, hss, offAt]
          · simp [stickyStep, hs, h1, h2, hss, offAt]
    · simp [stickyStep, accUpTo, hs, hk]
  · have hs' : (colAt cols t).sticky = false := by
      cases h : (colAt cols t).sticky
      · rfl
      · exact absurd h hs
    funext k
    simp [stickyStep, accUpTo, hs']

lemma foldl_enumFrom (cols : List Column)
    (hnd : (cols.map Column.key).Nodup) :
    ∀ n t, t + n = cols.length →
      List.foldl (stickyStep cols) (accUpTo cols t)
        (List.enumFrom t (cols.drop t)) = accUpTo cols cols.length
  | 0, t, h => by
      have ht : t = cols.length := by omega
      subst ht
      rw [List.drop_length]
      rfl
  | n + 1, t, h => by
      have ht : t < cols.length := by omega
      rw [List.drop_eq_getElem_cons ht,
        show (cols[t] : Column) = colAt cols t from (colAt_eq cols t ht).symm]
      show List.foldl (stickyStep cols)
        (stickyStep cols (accUpTo cols t) (t, colAt cols t))
        (List.enumFrom (t + 1) (cols.drop (t + 1))) = _
      rw [stickyStep_accUpTo cols hnd ht]
      exact foldl_enumFrom cols hnd n (t + 1) (by omega)

lemma stickyOffsets_eq_accUpTo (cols : List Column)
    (hnd : (cols.map Column.key).Nodup) :
    stickyOffsets cols = accUpTo cols cols.length := by
  have h := foldl_enumFrom cols hnd cols.length 0 (by omega)
  simpa [stickyOffsets, List.enum] using h

/-- C1 (amended): for columns with pairwise-distinct keys, the offset map
assigns to each sticky column its own width plus the recorded offset of the
immediately preceding column when that one is sticky (restarting from 0
otherwise), and assigns no entry to non-sticky columns; over a contiguous
leading run of sticky columns this is the running sum of the widths
(default 150) up to and INCLUDING the column itself — not the sum of the
strictly preceding widths. -/
theorem stickyOffsets_runsum (cols : List Column)
    (hnd : (cols.map Column.key).Nodup) :
    (∀ j, j < cols.length →
        stickyOffsets cols (colAt cols j).key
          = if (colAt cols j).sticky = true then some (offAt cols j)
            else none) ∧
    (∀ j, j < cols.length → (∀ l, l ≤ j → (colAt cols l).sticky = true) →
        offAt cols j = ((cols.take (j + 1)).map colWidth).sum) := by
  constructor
  · intro j hj
    rw [stickyOffsets_eq_accUpTo cols hnd]
    exact accUpTo_lookup cols hnd cols.length le_rfl j hj
  · intro j
    induction j with
    | zero =>
        intro hj _
        rw [List.map_take, List.sum_take_succ (cols.map colWidth) 0
          (by simpa using hj)]
        simp [offAt, colAt_eq cols 0 hj]
    | succ s ih =>
        intro hj hst
        have hs : s < cols.length := lt_trans (Nat.lt_succ_self s) hj
        rw [List.map_take, List.sum_take_succ (cols.map colWidth) (s + 1)
          (by simpa using hj), ← List.map_take,
          ← ih hs (fun l hl => hst l (Nat.le_succ_of_le hl))]
        simp [offAt, hst s (Nat.le_succ s), colAt_eq cols (s + 1) hj]

/-- C1 counterexample: on the specification's own scenario
`[{key:"id",sticky,width:80},{key:"name",sticky,width:200}]` the computed map
is `{id: 80, name: 280}`, not `{id: 0, name: 80}`: the recorded offset
includes the column's own width (the render layer later subtracts it back
off). -/
theorem stickyOffsets_claim_false :
    stickyOffsets exCols "id" ≠ some 0 ∧
    stickyOffsets exCols "id" = some 80 ∧
    stickyOffsets exCols "name" = some 280 := by decide

/-- Witness for `stickyOffsets_runsum` at the concrete scenario columns. -/
theorem stickyOffsets_runsum_witness :
    stickyOffsets exCols "name" = some (((exCols.take 2).map colWidth).sum) ∧
    ((exCols.take 2).map colWidth).sum = 280 := by
  have h := stickyOffsets_runsum exCols (by decide)
  have h1 := h.1 1 (by decide)
  have h2 := h.2 1 (by decide)
    (fun l hl => by
      rcases Nat.le_one_iff_eq_zero_or_eq_one.mp hl with h | h <;>
        subst h <;> rfl)
  refine ⟨?_, by decide⟩
  rw [show (colAt exCols 1).key = "name" from rfl,
    if_pos (show (colAt exCols 1).sticky = true from rfl), h2] at h1
  exact h1

/-! ### Cell resolver (C2) -/

/-- C2 (amended): `TableRow` renders exactly one cell per column — a cell is
never omitted, whatever the field value — and its content is the column-level
`cellRenderer` applied to the raw field value when one is configured,
otherwise the raw value itself.  Cell-descriptor objects receive no special
treatment: their `value`, `rowSpan` and `colSpan` fields are ignored, and a
`colSpan = 0` or `rowSpan = 0` descriptor is rendered like any other value
rather than omitted. -/
theorem tableRowCells_one_per_column (columns : List Column)
    (row : String → JSValue) :
    (tableRowCells columns row).map RenderedCell.key
        = columns.map Column.key ∧
    (tableRowCells columns row).map RenderedCell.content
        = columns.map (fun column =>
            match column.cellRenderer with
            | some f => f (row column.key) row
            | none => row column.key) := by
  constructor <;> simp [tableRowCells]

/-- C2 counterexample: the cell descriptor `{value:"IT", colSpan:0}` does NOT
make the cell disappear — the row still renders one cell for the column, and
its content is the raw descriptor object (neither its `value` field nor its
spans are consulted, and no cell-level renderer can apply). -/
theorem tableRowCells_claim_false :
    tableRowCells [deptCol] deptRow
        = [{ key := "department", leftOffset := none,
             content := .cellDesc (.str "IT") none (some 0) }] ∧
    (tableRowCells [deptCol] deptRow).length ≠ 0 := by decide

/-! ### Selection tracker (C3) -/

/-- C3 (amended): `toggleAll` clears the selection exactly when the number of
selected rows equals the number of currently LOADED rows — for a
duplicate-free selection drawn from duplicate-free loaded data this is
equivalent to every loaded row (not merely every currently visible row) being
selected — and otherwise replaces the selection with all loaded rows.  On a
3-row fully-selected table it clears; on a partially-selected one it selects
all 3. -/
theorem toggleAllRows_spec (selected data : List SRow)
    (hsel : selected.Nodup) (hdat : data.Nodup) (hsub : selected ⊆ data) :
    (toggleAllRows selected data = [] ↔ ∀ r ∈ data, r ∈ selected) ∧
    (¬ (∀ r ∈ data, r ∈ selected) → toggleAllRows selected data = data) := by
  have hiff : selected.length = data.length ↔ ∀ r ∈ data, r ∈ selected := by
    constructor
    · intro h r hr
      have hperm : selected.Perm data :=
        (List.subperm_of_subset hsel hsub).perm_of_length_le (le_of_eq h.symm)
      exact hperm.mem_iff.mpr hr
    · intro h
      have hle1 : selected.length ≤ data.length :=
        (List.subperm_of_subset hsel hsub).length_le
      have hle2 : data.length ≤ selected.length :=
        (List.subperm_of_subset hdat (fun r hr => h r hr)).length_le
      omega
  constructor
  · constructor
    · intro h
      by_cases hc : selected.length = data.length
      · exact hiff.mp hc
      · rw [toggleAllRows, if_neg hc] at h
        subst h
        intro r hr
        cases hr
    · intro h
      rw [toggleAllRows, if_pos (hiff.mpr h)]
  · intro h
    have hc : selected.length ≠ data.length := fun hc => h (hiff.mp hc)
    rw [toggleAllRows, if_neg hc]

/-- C3 counterexample: with loaded data `[r1, r2, r3]`, page size 2 and
page 1, every currently VISIBLE row (`r1`, `r2`) is selected, yet `toggleAll`
does not clear the selection — it compares the selection count against all
loaded rows and instead selects all three. -/
theorem toggleAllRows_claim_false :
    (∀ r ∈ paginatedData false 1 2 (sortedData false none none [r1, r2, r3]),
        r ∈ [r1, r2]) ∧
    toggleAllRows [r1, r2] [r1, r2, r3] ≠ [] := by decide

/-- Witness for `toggleAllRows_spec`: a partially selected 3-row table
selects all 3 rows, and a fully selected 3-row table clears. -/
theorem toggleAllRows_spec_witness :
    (¬ (∀ r ∈ [r1, r2, r3], r ∈ [r1, r2]) →
        toggleAllRows [r1, r2] [r1, r2, r3] = [r1, r2, r3]) ∧
    (toggleAllRows [r1, r2, r3] [r1, r2, r3] = [] ↔
        ∀ r ∈ [r1, r2, r3], r ∈ [r1, r2, r3]) :=
  ⟨(toggleAllRows_spec [r1, r2] [r1, r2, r3] (by decide) (by decide)
      (by decide)).2,
   (toggleAllRows_spec [r1, r2, r3] [r1, r2, r3] (by decide) (by decide)
      (by decide)).1⟩

/-! ### Sort engine (C4, C7) -/

lemma sortLe_iff (k : String) (d : SortDirection) (a b : SRow) :
    sortLe k d a b = true ↔ keyOrder k d a b := by
  rcases lt_trichotomy (rowVal a k) (rowVal b k) with h | h | h
  · cases d <;> simp [sortLe, sortCompare, keyOrder, h, h.le, h.not_le]
  · cases d <;> simp [sortLe, sortCompare, keyOrder, h]
  · cases d <;> simp [sortLe, sortCompare, keyOrder, h, h.le, h.not_le,
      h.not_lt]

lemma sortLe_trans (k : String) (d : SortDirection) (a b c : SRow)
    (h1 : sortLe k d a b = true) (h2 : sortLe k d b c = true) :
    sortLe k d a c = true := by
  rw [sortLe_iff] at h1 h2 ⊢
  cases d <;> simp only [keyOrder] at h1 h2 ⊢ <;> omega

lemma sortLe_total (k : String) (d : SortDirection) (a b : SRow) :
    (sortLe k d a b || sortLe k d b a) = true := by
  rcases le_total (rowVal a k) (rowVal b k) with h | h <;>
    cases d <;> simp [sortLe_iff, keyOrder, h]

lemma sortedData_sort_branch (dynamic : Bool) (k : String)
    (d : SortDirection) (hdk : ¬ (dynamic = true ∨ k = ""))
    (data : List SRow) :
    sortedData dynamic (some k) (some d) data
      = data.mergeSort (sortLe k d) := by
  simp only [sortedData]
  rw [if_neg hdk]

/-- C4: the sort engine returns the input unchanged whenever the sort key or
direction is unset (or the key is the falsy empty string) or dynamic mode is
active; otherwise it returns a permutation of the rows ordered by the keyed
field, ascending or descending as requested.  (The source sorts a copy,
`[...data].sort`, so the input sequence itself is never mutated; the
embedding is pure.) -/
theorem sortedData_spec (dynamic : Bool) (sc : Option String)
    (sd : Option SortDirection) (data : List SRow) :
    ((dynamic = true ∨ sc = none ∨ sc = some "" ∨ sd = none) →
        sortedData dynamic sc sd data = data) ∧
    (∀ k d, dynamic = false → sc = some k → k ≠ "" → sd = some d →
        (sortedData dynamic sc sd data).Perm data ∧
        (sortedData dynamic sc sd data).Pairwise (keyOrder k d)) := by
  constructor
  · intro h
    rcases h with h | h | h | h
    · subst h
      cases sc <;> cases sd <;> simp [sortedData]
    · subst h
      cases sd <;> simp [sortedData]
    · subst h
      cases sd <;> simp [sortedData]
    · subst h
      cases sc <;> simp [sortedData]
  · intro k d hdyn hsc hk hsd
    subst hdyn
    subst hsc
    subst hsd
    rw [sortedData_sort_branch false k d (by simp [hk]) data]
    refine ⟨List.mergeSort_perm data (sortLe k d), ?_⟩
    have h := @List.sorted_mergeSort SRow (sortLe k d) (sortLe_trans k d)
      (sortLe_total k d) data
    exact h.imp (fun hab => (sortLe_iff k d _ _).mp hab)

unseal List.merge List.mergeSort in
/-- Witness for `sortedData_spec`: `[{id:3},{id:1},{id:2}]` sorted by `id`
ascending is a permutation of the input, ordered by `id`, and is concretely
`[{id:1},{id:2},{id:3}]`; in dynamic mode the input is returned unchanged. -/
theorem sortedData_spec_witness :
    (sortedData false (some "id") (some SortDirection.asc)
        [r3, r1, r2]).Perm [r3, r1, r2] ∧
    (sortedData false (some "id") (some SortDirection.asc)
        [r3, r1, r2]).Pairwise (keyOrder "id" SortDirection.asc) ∧
    sortedData false (some "id") (some SortDirection.asc) [r3, r1, r2]
        = [r1, r2, r3] ∧
    sortedData true (some "id") (some SortDirection.asc) [r3, r1, r2]
        = [r3, r1, r2] := by
  have h := (sortedData_spec false (some "id") (some SortDirection.asc)
    [r3, r1, r2]).2 "id" SortDirection.asc rfl rfl (by decide) rfl
  have h0 := (sortedData_spec true (some "id") (some SortDirection.asc)
    [r3, r1, r2]).1 (Or.inl rfl)
  exact ⟨h.1, h.2, rfl, h0⟩

lemma sortedData_roundtrip (k : String) (hk : k ≠ "") (d1 d2 : SortDirection)
    (rows : List SRow)
    (hne : rows.Pairwise (fun a b => rowVal a k ≠ rowVal b k))
    (hsorted : rows.Pairwise (keyOrder k d2)) :
    sortedData false (some k) (some d2)
      (sortedData false (some k) (some d1) rows) = rows := by
  have hnot : ¬ ((false : Bool) = true ∨ k = "") := by simp [hk]
  rw [sortedData_sort_branch false k d1 hnot rows,
    sortedData_sort_branch false k d2 hnot]
  have hperm2 :
      ((rows.mergeSort (sortLe k d1)).mergeSort (sortLe k d2)).Perm rows :=
    (List.mergeSort_perm _ _).trans (List.mergeSort_perm rows _)
  have hres_sorted := @List.sorted_mergeSort SRow (sortLe k d2)
    (sortLe_trans k d2) (sortLe_total k d2) (rows.mergeSort (sortLe k d1))
  have hres_ord :
      ((rows.mergeSort (sortLe k d1)).mergeSort (sortLe k d2)).Pairwise
        (keyOrder k d2) :=
    hres_sorted.imp (fun hab => (sortLe_iff k d2 _ _).mp hab)
  have hres_ne :
      ((rows.mergeSort (sortLe k d1)).mergeSort (sortLe k d2)).Pairwise
        (fun a b => rowVal a k ≠ rowVal b k) :=
    (hperm2.pairwise_iff (fun hab => hab.symm)).mpr hne
  letI : IsAntisymm SRow
      (fun a b => keyOrder k d2 a b ∧ rowVal a k ≠ rowVal b k) :=
    ⟨fun a b hab hba => by
      cases d2
      · exact (hab.2 (le_antisymm hab.1 hba.1)).elim
      · exact (hab.2 (le_antisymm hba.1 hab.1)).elim⟩
  exact List.eq_of_perm_of_sorted hperm2 (hres_ord.and hres_ne)
    (hsorted.and hne)

/-- C7: sorting twice with the same key and direction yields the same
sequence as sorting once (idempotence, fully generally); and for a sequence
whose values at the key are pairwise distinct, toggling the direction twice
returns the sequence to its original order — an ascending-ordered sequence
survives a descending-then-ascending round trip, and a descending-ordered
sequence survives an ascending-then-descending one. -/
theorem sortedData_idem (dynamic : Bool) (sc : Option String)
    (sd : Option SortDirection) (rows : List SRow) :
    (sortedData dynamic sc sd (sortedData dynamic sc sd rows)
        = sortedData dynamic sc sd rows) ∧
    (∀ k, k ≠ "" →
      rows.Pairwise (fun a b => rowVal a k ≠ rowVal b k) →
      rows.Pairwise (keyOrder k SortDirection.asc) →
      sortedData false (some k) (some SortDirection.asc)
          (sortedData false (some k) (some SortDirection.desc) rows)
        = rows) ∧
    (∀ k, k ≠ "" →
      rows.Pairwise (fun a b => rowVal a k ≠ rowVal b k) →
      rows.Pairwise (keyOrder k SortDirection.desc) →
      sortedData false (some k) (some SortDirection.desc)
          (sortedData false (some k) (some SortDirection.asc) rows)
        = rows) := by
  refine ⟨?_, ?_, ?_⟩
  · rcases sc with _ | k
    · simp [sortedData]
    · rcases sd with _ | d
      · simp [sortedData]
      · by_cases hdk : dynamic = true ∨ k = ""
        · have hb : ∀ l : List SRow,
              sortedData dynamic (some k) (some d) l = l := fun l => by
            simp only [sortedData]
            rw [if_pos hdk]
          rw [hb, hb]
        · rw [sortedData_sort_branch dynamic k d hdk,
            sortedData_sort_branch dynamic k d hdk]
          exact List.mergeSort_of_sorted
            (@List.sorted_mergeSort SRow (sortLe k d) (sortLe_trans k d)
              (sortLe_total k d) rows)
  · intro k hk hne hsorted
    exact sortedData_roundtrip k hk SortDirection.desc SortDirection.asc
      rows hne hsorted
  · intro k hk hne hsorted
    exact sortedData_roundtrip k hk SortDirection.asc SortDirection.desc
      rows hne hsorted

/-- Witness for `sortedData_idem`: idempotence at the ascending `id` sort of
`[{id:3},{id:1},{id:2}]`, and the two direction-toggle round trips on the
duplicate-free ordered lists `[{id:1},{id:2},{id:3}]` and
`[{id:3},{id:2},{id:1}]`. -/
theorem sortedData_idem_witness :
    (sortedData false (some "id") (some SortDirection.asc)
        (sortedData false (some "id") (some SortDirection.asc) [r3, r1, r2])
      = sortedData false (some "id") (some SortDirection.asc) [r3, r1, r2]) ∧
    (sortedData false (some "id") (some SortDirection.asc)
        (sortedData false (some "id") (some SortDirection.desc) [r1, r2, r3])
      = [r1, r2, r3]) ∧
    (sortedData false (some "id") (some SortDirection.desc)
        (sortedData false (some "id") (some SortDirection.asc) [r3, r2, r1])
      = [r3, r2, r1]) :=
  ⟨(sortedData_idem false (some "id") (some SortDirection.asc)
      [r3, r1, r2]).1,
   (sortedData_idem false (some "id") (some SortDirection.asc)
      [r1, r2, r3]).2.1 "id" (by decide) (by decide) (by decide),
   (sortedData_idem false (some "id") (some SortDirection.asc)
      [r3, r2, r1]).2.2 "id" (by decide) (by decide) (by decide)⟩

/-! ### Pagination slicer (C5, C6) -/

lemma le_n_mul_ceilDiv (t n : Nat) (hn : 0 < n) :
    t ≤ n * ((t + n - 1) / n) ∧ n * ((t + n - 1) / n) < t + n := by
  have hd := Nat.div_add_mod (t + n - 1) n
  have hm := Nat.mod_lt (t + n - 1) hn
  generalize hA : n * ((t + n - 1) / n) = A at hd
  generalize hB : (t + n - 1) % n = B at hd hm
  omega

lemma totalPages_ceil (t n : Nat) (hn : 0 < n) :
    totalPages t n = (t + n - 1) / n := by
  obtain ⟨h3, h4⟩ := le_n_mul_ceilDiv t n hn
  set q := (t + n - 1) / n with hq
  have hnq : (0 : ℚ) < (n : ℚ) := by exact_mod_cast hn
  have hcast : (((q : ℤ)) : ℚ) = (q : ℚ) := by
    push_cast
    rfl
  have hceil : Int.ceil ((t : ℚ) / (n : ℚ)) = (q : ℤ) := by
    rw [Int.ceil_eq_iff]
    constructor
    · rw [lt_div_iff₀ hnq, hcast]
      have h4q : (n : ℚ) * (q : ℚ) < (t : ℚ) + (n : ℚ) := by
        exact_mod_cast h4
      nlinarith [h4q]
    · rw [div_le_iff₀ hnq, hcast]
      have h3q : (t : ℚ) ≤ (n : ℚ) * (q : ℚ) := by
        exact_mod_cast h3
      nlinarith [h3q]
  rw [totalPages, hceil, Int.toNat_natCast]

/-- C5: in static mode, pagination returns exactly the half-open slice
`[(page-1)·n, page·n)` of the rows, clamped to the available length —
an empty sequence, not an error, when the page lies beyond the data — and
`totalPages` equals `⌈totalItems / itemsPerPage⌉` (stated as the integer
closed form `(totalItems + n - 1) / n` of the source's `Math.ceil`). -/
theorem paginatedData_slice (rows : List SRow) (page n : Nat)
    (hp : 1 ≤ page) (hn : 0 < n) :
    (paginatedData false page n rows).length
        = min n (rows.length - (page - 1) * n) ∧
    (∀ i, i < n →
        (paginatedData false page n rows)[i]?
          = rows[(page - 1) * n + i]?) ∧
    (rows.length ≤ (page - 1) * n → paginatedData false page n rows = []) ∧
    (∀ t, totalPages t n = (t + n - 1) / n) := by
  obtain ⟨p, rfl⟩ : ∃ p, page = p + 1 := ⟨page - 1, by omega⟩
  have hslice : paginatedData false (p + 1) n rows
      = (rows.drop (p * n)).take n := by
    have h1 : (p + 1) * n - p * n = n := by
      rw [Nat.succ_mul]
      omega
    simp [paginatedData, jsSlice, h1]
  refine ⟨?_, ?_, ?_, fun t => totalPages_ceil t n hn⟩
  · rw [hslice]
    simp [List.length_take, List.length_drop]
  · intro i hi
    rw [hslice, List.getElem?_take, if_pos hi, List.getElem?_drop]
    simp
  · intro hle
    rw [hslice, List.drop_eq_nil_of_le (by simpa using hle)]
    simp

/-- Witness for `paginatedData_slice`: 45 rows with page size 20 give
`totalPages = 3` and a 5-element page-3 slice. -/
theorem paginatedData_slice_witness :
    (paginatedData false 3 20 rows45).length
        = min 20 (rows45.length - (3 - 1) * 20) ∧
    totalPages 45 20 = (45 + 20 - 1) / 20 ∧
    (paginatedData false 3 20 rows45).length = 5 ∧
    totalPages 45 20 = 3 := by
  have h := paginatedData_slice rows45 3 20 (by decide) (by decide)
  refine ⟨h.1, h.2.2.2 45, by decide, ?_⟩
  rw [h.2.2.2 45]

lemma flatten_slices {α : Type _} (l : List α) (n : Nat) :
    ∀ P, ((List.range P).map (fun i => jsSlice l (i * n) ((i + 1) * n))).flatten
      = l.take (P * n)
  | 0 => by simp
  | P + 1 => by
      rw [List.range_succ, List.map_append, List.flatten_append,
        flatten_slices l n P]
      have h1 : (P + 1) * n - P * n = n := by
        rw [Nat.succ_mul]
        omega
      have h2 : (P + 1) * n = P * n + n := Nat.succ_mul P n
      simp only [List.map_cons, List.map_nil, List.flatten_cons,
        List.flatten_nil, List.append_nil, jsSlice, h1]
      rw [h2, List.take_add]

/-- C6: concatenating the page slices of the sorted rows over all pages from
1 to `totalPages` reproduces the sorted sequence exactly — no row is lost,
duplicated, or reordered. -/
theorem pagination_partition (rows : List SRow) (k : Option String)
    (d : Option SortDirection) (n : Nat) (hn : 0 < n) :
    ((List.range
        (totalPages (sortedData false k d rows).length n)).map
      (fun i => paginatedData false (i + 1) n
        (sortedData false k d rows))).flatten
      = sortedData false k d rows := by
  set l := sortedData false k d rows
  have hmap : ∀ i, paginatedData false (i + 1) n l
      = jsSlice l (i * n) ((i + 1) * n) := by
    intro i
    simp [paginatedData]
  rw [List.map_congr_left (fun i _ => hmap i), flatten_slices l n _]
  apply List.take_of_length_le
  rw [totalPages_ceil l.length n hn]
  calc l.length ≤ n * ((l.length + n - 1) / n) :=
        (le_n_mul_ceilDiv l.length n hn).1
    _ = ((l.length + n - 1) / n) * n := mul_comm _ _

/-- Witness for `pagination_partition` on the 45-row data set with page
size 20 and the identity sort. -/
theorem pagination_partition_witness :
    ((List.range
        (totalPages (sortedData false none none rows45).length 20)).map
      (fun i => paginatedData false (i + 1) 20
        (sortedData false none none rows45))).flatten
      = sortedData false none none rows45 :=
  pagination_partition rows45 none none 20 (by decide)

/-! ### View-state synchronizer (C8, C10) and fetch orchestrator (C9) -/

/-- C8: clearing the sort deletes both `sortColumn` and `sortDirection` from
the query-parameter store submitted for navigation, sets the in-memory sort
column and direction to none, and resets the `page` parameter to `"1"`
(the in-memory page and page size are untouched; the page update flows back
through the inbound URL synchronization). -/
theorem handleClearSort_spec (s : SyncState) :
    (handleClearSort s).store "sortColumn" = none ∧
    (handleClearSort s).store "sortDirection" = none ∧
    (handleClearSort s).store "page" = some "1" ∧
    (handleClearSort s).sortColumn = none ∧
    (handleClearSort s).sortDirection = none ∧
    (handleClearSort s).currentPage = s.currentPage ∧
    (handleClearSort s).itemsPerPage = s.itemsPerPage :=
  ⟨rfl, rfl, rfl, rfl, rfl, rfl, rfl⟩

/-- C9: when the single fetch attempt fails, the orchestrator leaves the
previously held data and total-item count unchanged, ends with the loading
flag cleared, and reports exactly the one error to the diagnostic
collaborator (`console.error`) — no retry, no data mutation. -/
theorem fetchData_failure (s : FetchState) (e : String) :
    (fetchData true true (Except.error e) s).1.data = s.data ∧
    (fetchData true true (Except.error e) s).1.totalItems = s.totalItems ∧
    (fetchData true true (Except.error e) s).1.loading = false ∧
    (fetchData true true (Except.error e) s).2 = [e] :=
  ⟨rfl, rfl, rfl, rfl⟩

/-- C10: every outbound view-state update — sorting, clearing the sort,
changing the page, or changing the page size — leaves every query parameter
other than `page`, `itemsPerPage`, `sortColumn` and `sortDirection` present
with an unchanged value in the submitted store. -/
theorem updateSearchParams_frame (s : SyncState) (c : Column) (p : Nat)
    (v : String) (k : String) (h1 : k ≠ "page") (h2 : k ≠ "itemsPerPage")
    (h3 : k ≠ "sortColumn") (h4 : k ≠ "sortDirection") :
    (handleSort c s).store k = s.store k ∧
    (handleClearSort s).store k = s.store k ∧
    (handlePageChange p s).store k = s.store k ∧
    (handleItemsPerPageChange v s).store k = s.store k := by
  refine ⟨?_, ?_, ?_, ?_⟩
  · rw [handleSort]
    split
    · rfl
    · simp [updateSearchParams, h1, h3, h4]
  · simp [handleClearSort, updateSearchParams, h1, h3, h4]
  · simp [handlePageChange, updateSearchParams, h1]
  · simp [handleItemsPerPageChange, updateSearchParams, h1, h2]

/-- Witness for `updateSearchParams_frame`: the unrelated `ref=42` parameter
of `s0` survives all four outbound updates. -/
theorem updateSearchParams_frame_witness :
    (handleSort sortableCol s0).store "ref" = s0.store "ref" ∧
    (handleClearSort s0).store "ref" = s0.store "ref" ∧
    (handlePageChange 2 s0).store "ref" = s0.store "ref" ∧
    (handleItemsPerPageChange "10" s0).store "ref" = s0.store "ref" :=
  updateSearchParams_frame s0 sortableCol 2 "10" "ref"
    (by decide) (by decide) (by decide) (by decide)

end AdvancedTable
